import Mathlib

/-!
Verification development for the go-multicast library (package `multicast`).

The embedding models the two core components:

* `Consumer` (consumer.go): one multicast subscription holding one
  device-bound socket per qualifying interface, plus a receive loop per
  interface.
* `Listener` (listener.go): the registry tracking a collection of consumers.

Machine-level effects are made explicit:

* `World` models the OS socket table: a counter of allocated socket ids and
  the list of ids currently open.  Opening a socket allocates a fresh id;
  closing removes it.
* Consumer identity (Go pointer equality) is modelled with a heap mapping
  consumer ids to consumer states inside `Sys`; the registry collection is a
  list of consumer ids.
* The fallible per-interface construction steps (`openPacketConn`,
  `SetControlMessage`, `JoinGroup`) are driven by an oracle
  `Interface → IfaceOutcome` saying which step succeeds for each interface,
  so that every error path of `Consumer.start` is reachable.
-/

namespace Multicast

/-- IPv4 address, four octets, mirroring the 4-byte form of Go `net.IP`
(the library binds AF_INET sockets and uses the `ipv4` package). -/
structure IP where
  o0 : Nat
  o1 : Nat
  o2 : Nat
  o3 : Nat
deriving DecidableEq, Repr

/-- Go `net.IP.IsMulticast` on a 4-byte address: `ip4[0]&0xf0 == 0xe0`. -/
def IP.IsMulticast (ip : IP) : Bool :=
  ip.o0 &&& 0xf0 == 0xe0

/-- Go `net.UDPAddr`: IP plus UDP port. -/
structure UDPAddr where
  ip : IP
  port : Nat
deriving DecidableEq, Repr

/-- Go `net.FlagMulticast` (bit 4 of the interface flag word). -/
def flagMulticast : Nat := 0x10

/-- Go `net.Interface`: index, name and the flag bitmask (the code only
reads `Flags & net.FlagMulticast`). -/
structure Interface where
  idx : Nat
  name : String
  flags : Nat
deriving DecidableEq, Repr

/-- Go `const maxMTU = 1500` (consumer.go): size of the reused receive buffer. -/
def maxMTU : Nat := 1500

/-- OS socket table: next fresh socket id and the ids currently open. -/
structure World where
  nextId : Nat
  openSockets : List Nat
deriving DecidableEq, Repr

/-- Close each socket id in the list, removing it from the open set
(models the `pc.Close()` calls of `cleanup` and `Close`). -/
def closeSockets : World → List Nat → World
  | w, [] => w
  | w, sid :: rest => closeSockets { w with openSockets := w.openSockets.erase sid } rest

/-- Go map assignment `m[k] = v` on an association list: overwrite the
entry for `k` if present, else append a new entry. -/
def mapInsert (k v : Nat) : List (Nat × Nat) → List (Nat × Nat)
  | [] => [(k, v)]
  | (k1, v1) :: rest =>
    if k = k1 then (k, v) :: rest else (k1, v1) :: mapInsert k v rest

/-- Which of the three fallible per-interface steps of `Consumer.start`
succeed for a given interface (construction oracle). -/
structure IfaceOutcome where
  openOk : Bool
  setCtrlOk : Bool
  joinOk : Bool
deriving DecidableEq, Repr

/-- The per-interface construction step that failed, as named in the
`fmt.Errorf` messages of `Consumer.start`. -/
inductive Step where
  | socketOpen
  | setControlMessage
  | joinGroup
deriving DecidableEq, Repr

/-- Error returned by `Consumer.start`: it carries the failing interface
name and the failing step (both appear in the wrapped error message). -/
structure StartError where
  ifiName : String
  step : Step
deriving DecidableEq, Repr

/-- Error returned by `NewConsumer`: either the multicast-address
precondition failed, or `start` failed. -/
inductive ConsumerError where
  | invalidAddress (addr : UDPAddr)
  | startFailed (e : StartError)
deriving DecidableEq, Repr

/-- Go `Consumer` struct: group address, the interface list as supplied,
the `ipv4PacketConns` map (interface index to socket id) and the closed
flag.  The callback and mutex carry no state relevant to the claims. -/
structure Consumer where
  addr : UDPAddr
  ifis : List Interface
  conns : List (Nat × Nat)
  closed : Bool
deriving DecidableEq, Repr

/-- Embedding of `Consumer.start` (consumer.go lines 48-76).  Walks the
interface list; skips interfaces without the multicast flag; for each
qualifying interface performs open / SetControlMessage / JoinGroup as
dictated by the oracle.  On failure it runs `cleanup()` — closing exactly
the sockets recorded in the `conns` map and emptying the map — and returns
the error naming the interface and step.  On per-interface success the
socket is recorded in the map and a receive loop is spawned (recorded in
`loops`).  Note that `openPacketConn` closes its own file descriptor on
every internal failure path, so an open failure leaves no new socket open;
but a socket whose SetControlMessage or JoinGroup fails is not yet in the
map when `cleanup` runs. -/
def startGo (oracle : Interface → IfaceOutcome) :
    List Interface → World → List (Nat × Nat) → List (Nat × Nat) →
    World × List (Nat × Nat) × List (Nat × Nat) × Option StartError
  | [], w, conns, loops => (w, conns, loops, none)
  | ifi :: rest, w, conns, loops =>
    if ifi.flags &&& flagMulticast == 0 then
      startGo oracle rest w conns loops
    else if (oracle ifi).openOk = false then
      (closeSockets w (conns.map Prod.snd), [], loops, some ⟨ifi.name, Step.socketOpen⟩)
    else
      let sid := w.nextId
      let w1 : World := ⟨w.nextId + 1, w.openSockets ++ [sid]⟩
      if (oracle ifi).setCtrlOk = false then
        (closeSockets w1 (conns.map Prod.snd), [], loops, some ⟨ifi.name, Step.setControlMessage⟩)
      else if (oracle ifi).joinOk = false then
        (closeSockets w1 (conns.map Prod.snd), [], loops, some ⟨ifi.name, Step.joinGroup⟩)
      else
        startGo oracle rest w1 (mapInsert ifi.idx sid conns) (loops ++ [(ifi.idx, sid)])

/-- Embedding of `NewConsumer` (consumer.go lines 29-46): reject a
non-multicast address before touching any socket; otherwise build the
consumer with an empty map and run `start`.  The result carries the final
socket world, the receive loops spawned, and either the consumer or the
error. -/
def NewConsumerGo (oracle : Interface → IfaceOutcome) (addr : UDPAddr)
    (ifis : List Interface) (w : World) :
    World × List (Nat × Nat) × Except ConsumerError Consumer :=
  if addr.ip.IsMulticast = false then
    (w, [], Except.error (ConsumerError.invalidAddress addr))
  else
    match startGo oracle ifis w [] [] with
    | (w1, conns, loops, none) => (w1, loops, Except.ok ⟨addr, ifis, conns, false⟩)
    | (w1, _, loops, some e) => (w1, loops, Except.error (ConsumerError.startFailed e))

/-- Go `Consumer.Address()`. -/
def AddressGo (c : Consumer) : UDPAddr := c.addr

/-- Go `Consumer.Interfaces()`: returns the interface list exactly as
supplied at construction. -/
def InterfacesGo (c : Consumer) : List Interface := c.ifis

/-- Embedding of `Consumer.Close` (consumer.go lines 157-172): a no-op when
already closed; otherwise set the closed flag, close every socket in the
map and reset the map to empty. -/
def consumerClose : Consumer × World → Consumer × World
  | (c, w) =>
    if c.closed then (c, w)
    else ({ c with closed := true, conns := [] }, closeSockets w (c.conns.map Prod.snd))

/-- Sender address delivered with a datagram (Go `net.Addr`, passed through
to the callback unchanged). -/
structure SrcAddr where
  ip : IP
  port : Nat
deriving DecidableEq, Repr

/-- One invocation of the user callback: `(interface, sender, payload)`. -/
structure CallbackCall where
  ifi : Interface
  src : SrcAddr
  payload : List Nat
deriving DecidableEq, Repr

/-- Outcome of one `readLoop` iteration: the loop returns, or continues
having made the given callback invocations. -/
inductive LoopOut where
  | ret
  | next (calls : List CallbackCall)
deriving DecidableEq, Repr

/-- What `pc.ReadFrom(buf)` produced for one iteration: the `net.ErrClosed`
error, some other (transient) error, or a datagram carrying the optional
destination control message, the sender address and the full datagram
bytes (of which the 1500-byte buffer receives at most `maxMTU`). -/
inductive ReadResult where
  | closedErr
  | transientErr
  | datagram (cm : Option IP) (src : SrcAddr) (data : List Nat)
deriving DecidableEq, Repr

/-- Go `cm != nil && cm.Dst.Equal(c.addr.IP)`. -/
def dstMatches : Option IP → IP → Bool
  | none, _ => false
  | some dst, ip => dst = ip

/-- Embedding of one iteration of `Consumer.readLoop` (consumer.go lines
118-147).  The loop first checks the closed flag under the mutex and
returns if set; a `net.ErrClosed` read error ends the loop; any other read
error is swallowed; a datagram is delivered to the callback only when its
destination control message equals the group IP, and then with a copy of
exactly the first `n` bytes the buffer received (`n` is the read count,
at most `maxMTU`).  The loop never mutates the consumer, which the result
keeps explicit by returning the consumer unchanged. -/
def readLoopStep (c : Consumer) (ifi : Interface) (r : ReadResult) :
    Consumer × LoopOut :=
  if c.closed then (c, LoopOut.ret)
  else
    match r with
    | ReadResult.closedErr => (c, LoopOut.ret)
    | ReadResult.transientErr => (c, LoopOut.next [])
    | ReadResult.datagram cm src data =>
      let n := min data.length maxMTU
      if dstMatches cm c.addr.ip then
        (c, LoopOut.next [⟨ifi, src, data.take n⟩])
      else
        (c, LoopOut.next [])

/-- Combined registry and heap state.  `heap` maps consumer ids (the model
of Go pointers) to consumer states; `consumers` is the `Listener.consumers`
slice as a list of ids; `w` is the socket world; `ifis` the listener's
fixed interface set. -/
structure Sys where
  heap : List (Nat × Consumer)
  nextCid : Nat
  consumers : List Nat
  w : World
  ifis : List Interface
deriving DecidableEq, Repr

/-- Go `NewListener(ifis)`: empty collection. -/
def NewListenerGo (ifis : List Interface) : Sys :=
  ⟨[], 0, [], ⟨0, []⟩, ifis⟩

/-- Look up a consumer id in the heap. -/
def heapLookup (cid : Nat) : List (Nat × Consumer) → Option Consumer
  | [] => none
  | (k, c) :: rest => if k = cid then some c else heapLookup cid rest

/-- Replace the state stored for a consumer id in the heap. -/
def heapSet (cid : Nat) (c : Consumer) :
    List (Nat × Consumer) → List (Nat × Consumer)
  | [] => []
  | (k, c1) :: rest =>
    if k = cid then (k, c) :: rest else (k, c1) :: heapSet cid c rest

/-- Calling `Close()` on the consumer behind `cid`: the heap-level view of
`consumerClose` — a no-op when the consumer is already closed (or the id
is dangling), otherwise set the closed flag, close its sockets in the
world and empty its map. -/
def closeCid (sys : Sys) (cid : Nat) : Sys :=
  match heapLookup cid sys.heap with
  | none => sys
  | some c =>
    if c.closed then sys
    else
      { sys with
        heap := heapSet cid { c with closed := true, conns := [] } sys.heap,
        w := closeSockets sys.w (c.conns.map Prod.snd) }

/-- Embedding of `Listener.AddConsumer` (listener.go lines 21-32): build a
new consumer against the listener's interface set; on error return it with
the collection untouched; on success allocate a fresh id, publish the
consumer in the heap and append the id to the collection. -/
def addConsumerGo (oracle : Interface → IfaceOutcome) (sys : Sys)
    (addr : UDPAddr) : Sys × Except ConsumerError Nat :=
  match NewConsumerGo oracle addr sys.ifis sys.w with
  | (w1, _, Except.error e) => ({ sys with w := w1 }, Except.error e)
  | (w1, _, Except.ok c) =>
    ({ sys with
        heap := sys.heap ++ [(sys.nextCid, c)],
        nextCid := sys.nextCid + 1,
        consumers := sys.consumers ++ [sys.nextCid],
        w := w1 },
     Except.ok sys.nextCid)

/-- Remove the first occurrence of an id from the collection, as the
`for i, c := range` / `append(l[:i], l[i+1:]...)` / `break` loop does;
an absent id leaves the list unchanged. -/
def removeFirst (cid : Nat) : List Nat → List Nat
  | [] => []
  | c :: rest => if c = cid then rest else c :: removeFirst cid rest

/-- Embedding of `Listener.RemoveConsumer` (listener.go lines 34-47):
remove the first reference-equal match from the collection, then call
`consumer.Close()` — unconditionally, whether or not a match was found. -/
def removeConsumerGo (sys : Sys) (cid : Nat) : Sys :=
  closeCid { sys with consumers := removeFirst cid sys.consumers } cid

/-- Close every consumer id in the list, in order. -/
def closeAll (sys : Sys) : List Nat → Sys
  | [] => sys
  | cid :: rest => closeAll (closeCid sys cid) rest

/-- Embedding of `Listener.Close` (listener.go lines 49-58): close every
tracked consumer, then reset the collection to empty. -/
def listenerCloseGo (sys : Sys) : Sys :=
  { closeAll sys sys.consumers with consumers := [] }

/-- Go `Listener.Consumers()` (listener.go lines 64-73): a snapshot copy of
the collection. -/
def ConsumersGo (sys : Sys) : List Nat := sys.consumers

/-- Go `Listener.Interfaces()`. -/
def ListenerInterfacesGo (sys : Sys) : List Interface := sys.ifis

/-! Concrete instances used as inputs for witnesses and counterexamples. -/

/-- Oracle under which every per-interface construction step succeeds. -/
def oracleAllOk : Interface → IfaceOutcome := fun _ => ⟨true, true, true⟩

/-- Oracle under which SetControlMessage fails on every interface while the
socket open itself succeeds. -/
def oracleCtrlFail : Interface → IfaceOutcome := fun _ => ⟨true, false, true⟩

/-- A multicast-capable interface. -/
def ifiEth : Interface := ⟨1, "eth0", 0x10⟩

/-- An interface without the multicast flag (up and loopback only). -/
def ifiLo : Interface := ⟨1, "lo", 0x5⟩

/-- A multicast group address, 224.1.1.1:12345. -/
def addr224 : UDPAddr := ⟨⟨224, 1, 1, 1⟩, 12345⟩

/-- A non-multicast address, 192.168.1.1:12345. -/
def addr192 : UDPAddr := ⟨⟨192, 168, 1, 1⟩, 12345⟩

/-- The empty socket world. -/
def w0 : World := ⟨0, []⟩

/-- An open consumer with no sockets, used by counterexamples. -/
def consOpen : Consumer := ⟨addr224, [], [], false⟩

/-- An open consumer holding one socket (index 1, socket id 5). -/
def consOpenSock : Consumer := ⟨addr224, [], [(1, 5)], false⟩

/-- A world in which socket id 5 is open. -/
def wSock : World := ⟨6, [5]⟩

/-- A system whose heap holds one open consumer (id 0) that is not in the
registry collection. -/
def sysC2 : Sys := ⟨[(0, consOpen)], 1, [], w0, []⟩

/-! Helper lemmas shared by the claim theorems. -/

/-- Iterating an idempotent function at least once equals one application. -/
theorem iterate_fix {α : Type} (f : α → α) (hf : ∀ y, f (f y) = f y) :
    ∀ (n : Nat) (x : α), Nat.iterate f n (f x) = f x
  | 0, _ => rfl
  | n + 1, x => by
    rw [Function.iterate_succ_apply, hf, iterate_fix f hf n x]

/-- Removing an absent id from the collection changes nothing. -/
theorem removeFirst_not_mem (cid : Nat) (l : List Nat) (h : cid ∉ l) :
    removeFirst cid l = l := by
  induction l with
  | nil => rfl
  | cons c rest ih =>
    simp only [List.mem_cons, not_or] at h
    unfold removeFirst
    rw [if_neg (fun hc => h.1 hc.symm), ih h.2]

/-- Closing a consumer touches the heap and world only, never the
registry collection. -/
theorem closeCid_consumers (sys : Sys) (cid : Nat) :
    (closeCid sys cid).consumers = sys.consumers := by
  unfold closeCid
  rcases h : heapLookup cid sys.heap with _ | c
  · rfl
  · split
    · rfl
    · split <;> rfl

/-! Claim theorems. -/

/-- C1: the claim says that when a per-interface construction step fails,
every socket opened so far is released, including the one on which the
failing step was attempted.  The code violates this: `cleanup` closes only
the sockets recorded in the `ipv4PacketConns` map, and the current socket
is recorded there only after all three steps succeed — so when
SetControlMessage (or JoinGroup) fails, the freshly opened socket stays
open.  Concretely: one multicast-capable interface, open succeeds,
SetControlMessage fails; `start` returns the error naming the interface
and step, but socket id 0 is still open. -/
theorem start_leaks_socket_on_ctrl_failure :
    startGo oracleCtrlFail [ifiEth] w0 [] [] =
      (⟨1, [0]⟩, [], [], some ⟨"eth0", Step.setControlMessage⟩) ∧
    (⟨1, [0]⟩ : World).openSockets ≠ [] := by
  exact ⟨rfl, by decide⟩

/-- C4: constructing a consumer for a non-multicast address always fails
with the invalid-address error before any side effect: the socket world is
returned unchanged, no receive loop is spawned, and going through the
registry, `AddConsumer` returns the same error with the whole system state
unchanged. -/
theorem newConsumer_invalidAddress (oracle : Interface → IfaceOutcome)
    (addr : UDPAddr) (ifis : List Interface) (w : World) (sys : Sys)
    (h : addr.ip.IsMulticast = false) :
    NewConsumerGo oracle addr ifis w =
      (w, [], Except.error (ConsumerError.invalidAddress addr)) ∧
    addConsumerGo oracle sys addr =
      (sys, Except.error (ConsumerError.invalidAddress addr)) := by
  have h2 : NewConsumerGo oracle addr sys.ifis sys.w =
      (sys.w, [], Except.error (ConsumerError.invalidAddress addr)) := by
    unfold NewConsumerGo
    rw [h]
    rfl
  constructor
  · unfold NewConsumerGo
    rw [h]
    rfl
  · unfold addConsumerGo
    rw [h2]

/-- Witness for C4 at the concrete non-multicast address 192.168.1.1. -/
theorem newConsumer_invalidAddress_witness :
    NewConsumerGo oracleAllOk addr192 [ifiEth] w0 =
      (w0, [], Except.error (ConsumerError.invalidAddress addr192)) ∧
    addConsumerGo oracleAllOk (NewListenerGo [ifiEth]) addr192 =
      (NewListenerGo [ifiEth], Except.error (ConsumerError.invalidAddress addr192)) :=
  newConsumer_invalidAddress oracleAllOk addr192 [ifiEth] w0
    (NewListenerGo [ifiEth]) (by decide)

/-- C5: Close is idempotent on both components.  For the consumer, a
second application of `consumerClose` changes nothing, the closed flag is
set after the first call, the socket map is empty after closing an open
consumer, and N+1 applications equal one.  For the registry,
`listenerCloseGo` is idempotent and leaves the collection empty. -/
theorem close_idempotent (c : Consumer) (w : World) (sys : Sys) (n : Nat) :
    consumerClose (consumerClose (c, w)) = consumerClose (c, w) ∧
    (consumerClose (c, w)).1.closed = true ∧
    (c.closed = false → (consumerClose (c, w)).1.conns = []) ∧
    Nat.iterate consumerClose (n + 1) (c, w) = consumerClose (c, w) ∧
    listenerCloseGo (listenerCloseGo sys) = listenerCloseGo sys ∧
    (listenerCloseGo sys).consumers = [] := by
  have hidem : ∀ p : Consumer × World, consumerClose (consumerClose p) = consumerClose p := by
    rintro ⟨c1, w1⟩
    by_cases hc : c1.closed <;> simp [consumerClose, hc]
  refine ⟨hidem (c, w), ?_, ?_, ?_, ?_, rfl⟩
  · by_cases hc : c.closed <;> simp [consumerClose, hc]
  · intro hc
    simp [consumerClose, hc]
  · rw [Function.iterate_succ_apply]
    exact iterate_fix consumerClose hidem n (c, w)
  · rfl

/-- Witness for C5 closing an open consumer holding one socket. -/
theorem close_idempotent_witness :
    consumerClose (consumerClose (consOpenSock, wSock)) = consumerClose (consOpenSock, wSock) ∧
    (consumerClose (consOpenSock, wSock)).1.conns = [] := by
  have h := close_idempotent consOpenSock wSock (NewListenerGo []) 2
  exact ⟨h.1, h.2.2.1 rfl⟩

/-- C6: a successful `AddConsumer` appends exactly one entry to the
collection, and that entry is the very id returned to the caller; a
failed `AddConsumer` leaves the collection exactly unchanged. -/
theorem addConsumer_collection (oracle : Interface → IfaceOutcome)
    (sys : Sys) (addr : UDPAddr) :
    match addConsumerGo oracle sys addr with
    | (sys1, Except.ok cid) =>
        sys1.consumers = sys.consumers ++ [cid] ∧
        sys1.consumers.length = sys.consumers.length + 1
    | (sys1, Except.error _) => sys1.consumers = sys.consumers := by
  rcases h : NewConsumerGo oracle addr sys.ifis sys.w with ⟨w1, loops, r⟩
  unfold addConsumerGo
  rw [h]
  cases r <;> simp

/-- C2 counterexample: `RemoveConsumer` on a consumer absent from the
collection leaves the collection unchanged but still closes the passed
consumer — the claim asserts the consumer is not closed.  Concretely the
heap consumer with id 0 is open and not in the collection, and after
`RemoveConsumer` its closed flag is set. -/
theorem removeConsumer_absent_still_closes :
    (0 ∉ sysC2.consumers) ∧
    consOpen.closed = false ∧
    (removeConsumerGo sysC2 0).consumers = sysC2.consumers ∧
    (heapLookup 0 (removeConsumerGo sysC2 0).heap).map Consumer.closed = some true := by
  decide

/-- C2 (amended): `RemoveConsumer` with a consumer not in the collection
leaves the collection unchanged (same size, same members), but the passed
consumer is still closed — the whole call is exactly a `Close` of the
passed consumer, harmless when it was already closed since Close is
idempotent; a consumer found by reference equality is removed and then
closed. -/
theorem removeConsumer_absent (sys : Sys) (cid : Nat) (h : cid ∉ sys.consumers) :
    removeConsumerGo sys cid = closeCid sys cid ∧
    (removeConsumerGo sys cid).consumers = sys.consumers := by
  have hr : removeFirst cid sys.consumers = sys.consumers :=
    removeFirst_not_mem cid sys.consumers h
  have he : ({ sys with consumers := removeFirst cid sys.consumers } : Sys) = sys := by
    rw [hr]
  constructor
  · unfold removeConsumerGo
    rw [he]
  · unfold removeConsumerGo
    rw [he, closeCid_consumers]

/-- Witness for C2 (amended) at a concrete registry with an absent id. -/
theorem removeConsumer_absent_witness :
    removeConsumerGo sysC2 0 = closeCid sysC2 0 ∧
    (removeConsumerGo sysC2 0).consumers = sysC2.consumers :=
  removeConsumer_absent sysC2 0 (by decide)

/-- Skipping every interface: when no interface has the multicast flag,
`start` walks the whole list without opening anything and succeeds with
the state it was given. -/
theorem startGo_skip_all (oracle : Interface → IfaceOutcome) (ifis : List Interface) :
    ∀ (w : World) (conns loops : List (Nat × Nat)),
    (∀ ifi ∈ ifis, ifi.flags &&& flagMulticast = 0) →
    startGo oracle ifis w conns loops = (w, conns, loops, none) := by
  induction ifis with
  | nil =>
    intro w conns loops _
    rfl
  | cons ifi rest ih =>
    intro w conns loops h
    have h0 := h ifi (List.mem_cons_self _ _)
    unfold startGo
    rw [h0]
    simpa using ih w conns loops (fun i hi => h i (List.mem_cons_of_mem _ hi))

/-- C3 counterexample: the claim says a consumer whose interfaces were all
skipped reports an empty interface set; in the code `Interfaces()` returns
the supplied list unchanged.  Concretely, constructing on the single
non-multicast-capable interface succeeds with an empty socket map, yet
`Interfaces()` returns the one-element supplied list, not the empty set. -/
theorem interfaces_not_empty_when_all_skipped :
    NewConsumerGo oracleAllOk addr224 [ifiLo] w0 =
      (w0, [], Except.ok ⟨addr224, [ifiLo], [], false⟩) ∧
    InterfacesGo ⟨addr224, [ifiLo], [], false⟩ ≠ [] := by
  refine ⟨rfl, ?_⟩
  simp [InterfacesGo]

/-- C3 (amended): when no supplied interface has the multicast flag,
construction succeeds with an empty socket map and no receive loop, and
the consumer reports the originally supplied interface list unchanged —
so the reported interface set is empty only when the supplied list itself
was empty. -/
theorem newConsumer_all_skipped (oracle : Interface → IfaceOutcome)
    (addr : UDPAddr) (ifis : List Interface) (w : World)
    (hm : addr.ip.IsMulticast = true)
    (hs : ∀ ifi ∈ ifis, ifi.flags &&& flagMulticast = 0) :
    NewConsumerGo oracle addr ifis w = (w, [], Except.ok ⟨addr, ifis, [], false⟩) ∧
    InterfacesGo ⟨addr, ifis, [], false⟩ = ifis ∧
    Consumer.conns ⟨addr, ifis, [], false⟩ = [] := by
  refine ⟨?_, rfl, rfl⟩
  unfold NewConsumerGo
  rw [hm, startGo_skip_all oracle ifis w [] [] hs]
  simp

/-- Looking up a key other than the one being set is unaffected. -/
theorem heapLookup_heapSet_ne (cid cid' : Nat) (c : Consumer)
    (h : List (Nat × Consumer)) (hne : cid' ≠ cid) :
    heapLookup cid' (heapSet cid c h) = heapLookup cid' h := by
  induction h with
  | nil => rfl
  | cons kc rest ih =>
    rcases kc with ⟨k, c1⟩
    by_cases hk : k = cid
    · subst hk
      have hne2 : ¬ k = cid' := fun he => hne he.symm
      simp [heapSet, heapLookup, hne2]
    · by_cases hk2 : k = cid'
      · simp [heapSet, heapLookup, hk, hk2, hne]
      · simp [heapSet, heapLookup, hk, hk2, ih]

/-- Setting a present key makes lookup return the new value. -/
theorem heapLookup_heapSet_self (cid : Nat) (c c0 : Consumer)
    (h : List (Nat × Consumer)) (hp : heapLookup cid h = some c0) :
    heapLookup cid (heapSet cid c h) = some c := by
  induction h with
  | nil => cases hp
  | cons kc rest ih =>
    rcases kc with ⟨k, c1⟩
    by_cases hk : k = cid
    · simp [heapSet, heapLookup, hk]
    · simp only [heapLookup, if_neg hk] at hp
      simp [heapSet, heapLookup, hk, ih hp]

/-- Predicate: the consumer behind `cid` is closed whenever it is present. -/
def ClosedAt (cid : Nat) (sys : Sys) : Prop :=
  ∀ c : Consumer, heapLookup cid sys.heap = some c → c.closed = true

/-- After `closeCid sys cid`, the consumer behind `cid` is closed. -/
theorem closeCid_target_closed (sys : Sys) (cid : Nat) :
    ClosedAt cid (closeCid sys cid) := by
  intro c hc
  rcases h : heapLookup cid sys.heap with _ | c0
  · simp only [closeCid, h] at hc
    exact Option.noConfusion hc
  · by_cases hcl : c0.closed = true
    · simp only [closeCid, h, hcl, if_true] at hc
      injection hc with hc
      subst hc
      exact hcl
    · simp only [closeCid, h, if_neg hcl] at hc
      rw [heapLookup_heapSet_self cid
        { c0 with closed := true, conns := [] } c0 sys.heap h] at hc
      injection hc with hc
      subst hc
      rfl

/-- Closing one consumer keeps every already-closed consumer closed. -/
theorem closeCid_preserves_closedAt (sys : Sys) (cid cid' : Nat)
    (h : ClosedAt cid sys) : ClosedAt cid (closeCid sys cid') := by
  by_cases he : cid' = cid
  · subst he
    exact closeCid_target_closed sys cid'
  · intro c hc
    rcases h0 : heapLookup cid' sys.heap with _ | c0
    · simp only [closeCid, h0] at hc
      exact h c hc
    · by_cases hcl : c0.closed = true
      · simp only [closeCid, h0, hcl, if_true] at hc
        exact h c hc
      · simp only [closeCid, h0, if_neg hcl] at hc
        rw [heapLookup_heapSet_ne cid' cid _ sys.heap (fun x => he x.symm)] at hc
        exact h c hc

/-- After closing every id in a list, each id in the list (and each id
already closed beforehand) is closed if present. -/
theorem closeAll_closedAt (l : List Nat) :
    ∀ (sys : Sys) (cid : Nat), (cid ∈ l ∨ ClosedAt cid sys) →
      ClosedAt cid (closeAll sys l) := by
  induction l with
  | nil =>
    intro sys cid h
    rcases h with h | h
    · cases h
    · exact h
  | cons c1 rest ih =>
    intro sys cid h
    unfold closeAll
    rcases h with h | h
    · rcases List.mem_cons.mp h with rfl | hm
      · exact ih (closeCid sys cid) cid (Or.inr (closeCid_target_closed sys cid))
      · exact ih (closeCid sys c1) cid (Or.inl hm)
    · exact ih (closeCid sys c1) cid (Or.inr (closeCid_preserves_closedAt sys cid c1 h))

/-- C7: registry Close closes every consumer tracked in the collection —
including already-closed ones, for which the close is a no-op — and leaves
the collection empty; a subsequent `Consumers()` snapshot is empty. -/
theorem registryClose_closes_all (sys : Sys) (cid : Nat) (c : Consumer)
    (h1 : cid ∈ sys.consumers)
    (h2 : heapLookup cid (listenerCloseGo sys).heap = some c) :
    c.closed = true ∧
    (listenerCloseGo sys).consumers = [] ∧
    ConsumersGo (listenerCloseGo sys) = [] := by
  refine ⟨?_, rfl, rfl⟩
  exact closeAll_closedAt sys.consumers sys cid (Or.inl h1) c h2

/-- An already-closed consumer with no sockets. -/
def consClosed : Consumer := ⟨addr224, [], [], true⟩

/-- A registry tracking one open consumer (id 0) and one already-closed
consumer (id 1). -/
def sys7 : Sys := ⟨[(0, consOpenSock), (1, consClosed)], 2, [0, 1], wSock, []⟩

/-- Witness for C7: after closing the concrete registry, the consumer that
was open is found closed and the collection is empty. -/
theorem registryClose_closes_all_witness :
    (⟨addr224, [], [], true⟩ : Consumer).closed = true ∧
    (listenerCloseGo sys7).consumers = [] ∧
    ConsumersGo (listenerCloseGo sys7) = [] :=
  registryClose_closes_all sys7 0 ⟨addr224, [], [], true⟩ (by decide) (by decide)

/-- Witness for C3 (amended) at the concrete skipped-interface input. -/
theorem newConsumer_all_skipped_witness :
    NewConsumerGo oracleAllOk addr224 [ifiLo] w0 =
      (w0, [], Except.ok ⟨addr224, [ifiLo], [], false⟩) ∧
    InterfacesGo ⟨addr224, [ifiLo], [], false⟩ = [ifiLo] := by
  have h := newConsumer_all_skipped oracleAllOk addr224 [ifiLo] w0 (by decide) (by decide)
  exact ⟨h.1, h.2.1⟩

/-- A sender address used by the read-loop witnesses. -/
def srcEx : SrcAddr := ⟨⟨10, 0, 0, 1⟩, 4242⟩

/-- C8: for a datagram read by the receive loop of an open consumer, a
delivered destination different from the group IP means the callback is
not invoked; a delivered destination equal to the group IP means the
callback is invoked exactly once, with the receiving interface, the
sender address and exactly the first n received bytes (n the read count,
at most the buffer size). -/
theorem readLoop_filters_by_destination (c : Consumer) (ifi : Interface)
    (src : SrcAddr) (data : List Nat) (dst : IP) (hopen : c.closed = false) :
    (dst ≠ c.addr.ip →
      readLoopStep c ifi (ReadResult.datagram (some dst) src data) =
        (c, LoopOut.next [])) ∧
    (dst = c.addr.ip →
      readLoopStep c ifi (ReadResult.datagram (some dst) src data) =
        (c, LoopOut.next [⟨ifi, src, data.take (min data.length maxMTU)⟩])) := by
  constructor
  · intro hne
    simp [readLoopStep, hopen, dstMatches, hne]
  · intro heq
    simp [readLoopStep, hopen, dstMatches, heq]

/-- Witness for C8: a mismatching destination drops the datagram, the
matching destination delivers it exactly once. -/
theorem readLoop_filters_by_destination_witness :
    readLoopStep consOpen ifiEth (ReadResult.datagram (some ⟨225, 0, 0, 1⟩) srcEx [1, 2, 3]) =
      (consOpen, LoopOut.next []) ∧
    readLoopStep consOpen ifiEth (ReadResult.datagram (some ⟨224, 1, 1, 1⟩) srcEx [1, 2, 3]) =
      (consOpen, LoopOut.next [⟨ifiEth, srcEx, [1, 2, 3].take (min [1, 2, 3].length maxMTU)⟩]) := by
  constructor
  · exact (readLoop_filters_by_destination consOpen ifiEth srcEx [1, 2, 3]
      ⟨225, 0, 0, 1⟩ rfl).1 (by decide)
  · exact (readLoop_filters_by_destination consOpen ifiEth srcEx [1, 2, 3]
      ⟨224, 1, 1, 1⟩ rfl).2 (by decide)

/-- C10: every payload the receive loop hands to the callback has length
at most `maxMTU` = 1500 bytes; it is exactly the first
`min (length of datagram) 1500` bytes of the received datagram, so a
longer datagram is delivered truncated to the first 1500 bytes, with no
signal of truncation. -/
theorem readLoop_payload_bounded (c : Consumer) (ifi : Interface)
    (cm : Option IP) (src : SrcAddr) (data : List Nat)
    (calls : List CallbackCall)
    (h : (readLoopStep c ifi (ReadResult.datagram cm src data)).2 = LoopOut.next calls)
    (call : CallbackCall) (hc : call ∈ calls) :
    call.payload.length ≤ maxMTU ∧
    call.payload = data.take (min data.length maxMTU) ∧
    (maxMTU < data.length → call.payload.length = maxMTU) := by
  by_cases hcl : c.closed = true
  · simp [readLoopStep, hcl] at h
  · by_cases hd : dstMatches cm c.addr.ip = true
    · simp [readLoopStep, hcl, hd] at h
      subst h
      rcases List.mem_singleton.mp hc with rfl
      refine ⟨?_, rfl, ?_⟩
      · simp only [List.length_take]
        omega
      · intro hlong
        simp only [List.length_take]
        omega
    · simp [readLoopStep, hcl, hd] at h
      subst h
      cases hc

set_option maxRecDepth 8192 in
/-- Witness for C10 on a 1501-byte datagram: the delivered payload is the
1500-byte truncation. -/
theorem readLoop_payload_bounded_witness :
    ((List.replicate 1501 7).take (min (List.replicate 1501 7).length maxMTU)).length ≤ maxMTU ∧
    (maxMTU < (List.replicate 1501 7).length →
      ((List.replicate 1501 7).take (min (List.replicate 1501 7).length maxMTU)).length = maxMTU) := by
  have h := readLoop_payload_bounded consOpen ifiEth (some ⟨224, 1, 1, 1⟩) srcEx
    (List.replicate 1501 7)
    [⟨ifiEth, srcEx, (List.replicate 1501 7).take (min (List.replicate 1501 7).length maxMTU)⟩]
    rfl
    ⟨ifiEth, srcEx, (List.replicate 1501 7).take (min (List.replicate 1501 7).length maxMTU)⟩
    (List.mem_singleton.mpr rfl)
  exact ⟨h.1, h.2.2⟩

/-- Consumer state invariant: the socket map has no duplicate interface
index, and a closed consumer has an empty socket map. -/
def ConsInv (c : Consumer) : Prop :=
  (c.conns.map Prod.fst).Nodup ∧ (c.closed = true → c.conns = [])

/-- Membership in the keys after a Go map assignment. -/
theorem mem_keys_mapInsert (k v k' : Nat) :
    ∀ l : List (Nat × Nat),
      (k' ∈ (mapInsert k v l).map Prod.fst ↔ k' = k ∨ k' ∈ l.map Prod.fst) := by
  intro l
  induction l with
  | nil => simp [mapInsert]
  | cons kv rest ih =>
    rcases kv with ⟨k1, v1⟩
    by_cases hk : k = k1
    · subst hk
      simp [mapInsert]
    · simp [mapInsert, hk, ih]
      tauto

/-- A Go map assignment preserves distinctness of the keys. -/
theorem mapInsert_keys_nodup (k v : Nat) :
    ∀ l : List (Nat × Nat),
      (l.map Prod.fst).Nodup → ((mapInsert k v l).map Prod.fst).Nodup := by
  intro l
  induction l with
  | nil =>
    intro _
    simp [mapInsert]
  | cons kv rest ih =>
    rcases kv with ⟨k1, v1⟩
    intro h
    simp only [List.map_cons, List.nodup_cons] at h
    by_cases hk : k = k1
    · subst hk
      simpa [mapInsert] using h
    · simp only [mapInsert, if_neg hk, List.map_cons, List.nodup_cons]
      refine ⟨?_, ih h.2⟩
      intro hm
      rcases (mem_keys_mapInsert k v k1 rest).mp hm with he | hm2
      · exact hk he.symm
      · exact h.1 hm2

/-- The socket map built by `start` has distinct interface indices. -/
theorem startGo_conns_nodup (oracle : Interface → IfaceOutcome) :
    ∀ (ifis : List Interface) (w : World) (conns loops : List (Nat × Nat)),
      (conns.map Prod.fst).Nodup →
      (((startGo oracle ifis w conns loops).2.1).map Prod.fst).Nodup := by
  intro ifis
  induction ifis with
  | nil =>
    intro w conns loops h
    exact h
  | cons ifi rest ih =>
    intro w conns loops h
    unfold startGo
    split
    · exact ih w conns loops h
    · split
      · simp
      · split
        · simp
        · split
          · simp
          · exact ih _ _ _ (mapInsert_keys_nodup ifi.idx w.nextId conns h)

/-- A successfully constructed consumer satisfies the invariant. -/
theorem newConsumerGo_inv (oracle : Interface → IfaceOutcome)
    (addr : UDPAddr) (ifis : List Interface) (w w1 : World)
    (loops : List (Nat × Nat)) (c : Consumer)
    (h : NewConsumerGo oracle addr ifis w = (w1, loops, Except.ok c)) :
    ConsInv c := by
  unfold NewConsumerGo at h
  by_cases hm : addr.ip.IsMulticast = false
  · rw [if_pos hm] at h
    simp at h
  · rw [if_neg hm] at h
    rcases hs : startGo oracle ifis w [] [] with ⟨w2, conns, loops1, e⟩
    rw [hs] at h
    cases e with
    | none =>
      simp only [Prod.mk.injEq, Except.ok.injEq] at h
      rcases h with ⟨_, _, hc⟩
      subst hc
      constructor
      · have := startGo_conns_nodup oracle ifis w [] [] (by simp)
        rw [hs] at this
        exact this
      · intro hcl
        cases hcl
    | some e =>
      simp at h

/-- C9: the consumer state invariant (at most one socket per interface
index in the map; a closed consumer has an empty map) holds for every
successfully constructed consumer and is preserved by Close and by every
receive-loop step; the closed flag is monotone (Close never reopens), a
closed consumer stays closed, and Close leaves the map empty; a
receive-loop step never mutates the consumer at all. -/
theorem consumer_invariant :
    (∀ (oracle : Interface → IfaceOutcome) (addr : UDPAddr)
        (ifis : List Interface) (w w1 : World) (loops : List (Nat × Nat))
        (c : Consumer),
       NewConsumerGo oracle addr ifis w = (w1, loops, Except.ok c) → ConsInv c) ∧
    (∀ (c : Consumer) (w : World), ConsInv c → ConsInv (consumerClose (c, w)).1) ∧
    (∀ (c : Consumer) (w : World), c.closed = true →
       (consumerClose (c, w)).1.closed = true) ∧
    (∀ (c : Consumer) (w : World), ConsInv c →
       (consumerClose (c, w)).1.closed = true ∧ (consumerClose (c, w)).1.conns = []) ∧
    (∀ (c : Consumer) (ifi : Interface) (r : ReadResult),
       (readLoopStep c ifi r).1 = c) := by
  refine ⟨newConsumerGo_inv, ?_, ?_, ?_, ?_⟩
  · intro c w hinv
    by_cases hc : c.closed = true
    · simpa [consumerClose, hc] using hinv
    · refine ⟨?_, ?_⟩ <;> simp [consumerClose, hc]
  · intro c w hc
    simp [consumerClose, hc]
  · intro c w hinv
    by_cases hc : c.closed = true
    · simp [consumerClose, hc, hinv.2 hc]
    · simp [consumerClose, hc]
  · intro c ifi r
    unfold readLoopStep
    split
    · rfl
    · cases r
      · rfl
      · rfl
      · dsimp only
        split <;> rfl

/-- Witness for C9 at concrete consumers: a freshly constructed consumer
satisfies the invariant, closing preserves it, a closed consumer stays
closed, and closing empties the map. -/
theorem consumer_invariant_witness :
    ConsInv ⟨addr224, [ifiEth], [(1, 0)], false⟩ ∧
    ConsInv (consumerClose (consOpenSock, wSock)).1 ∧
    (consumerClose (consClosed, w0)).1.closed = true ∧
    ((consumerClose (consOpenSock, wSock)).1.closed = true ∧
      (consumerClose (consOpenSock, wSock)).1.conns = []) := by
  have h := consumer_invariant
  refine ⟨?_, ?_, ?_, ?_⟩
  · exact h.1 oracleAllOk addr224 [ifiEth] w0 ⟨1, [0]⟩ [(1, 0)]
      ⟨addr224, [ifiEth], [(1, 0)], false⟩ rfl
  · exact h.2.1 consOpenSock wSock ⟨by decide, by decide⟩
  · exact h.2.2.1 consClosed w0 rfl
  · exact h.2.2.2.1 consOpenSock wSock ⟨by decide, by decide⟩

end Multicast
